import Mathlib

/-!
Verification of the pattern-scanner core of `test_enhanced_scanner.py`
(`analyze_terraform_vulnerabilities`, lines 29-60 for the scan loop,
lines 62-83 for severity-grouped rendering, lines 85-88 for summary
counters).

The scan loop iterates over a knowledge base of pattern entries
(dicts with keys `category`, `severity`, `vulnerability`, `pattern`,
`remediation`), calls `re.findall(pattern, content, re.IGNORECASE |
re.MULTILINE)` on the whole corpus, and on a non-empty match list
re-tests the pattern per line with `re.search(pattern, line,
re.IGNORECASE)` to collect 1-based line evidence; `re.error`
(a malformed pattern) makes the loop skip the entry.

The regex engine itself is third-party (Python `re`); we abstract it
as a `RegexEngine` record with one field per call site: whether a
pattern string compiles (an `re.error` property of the pattern text
alone), the whole-text `findall` under IGNORECASE|MULTILINE, and the
per-line `search` under IGNORECASE.  Theorems about the scan structure
are proved for every engine; concrete evaluations use a literal
substring engine that coincides with Python `re` on the metacharacter-
free patterns appearing in those evaluations.
-/

namespace GuardianScan

/-- Whitespace characters removed by Python `str.strip()` (ASCII range). -/
def pyIsSpace (c : Char) : Bool :=
  c = ' ' || c = '\t' || c = '\n' || c = '\r' || c = '\x0b' || c = '\x0c'

/-- Python `str.strip()` on a character list. -/
def pyStripList (s : List Char) : List Char :=
  ((s.dropWhile pyIsSpace).reverse.dropWhile pyIsSpace).reverse

/-- Python `line.strip()` as used at line 47 of the scan loop. -/
def pyStrip (s : String) : String := String.mk (pyStripList s.data)

/-- Python `str.split('\n')` on a character list: the list of segments
between newline characters.  `[]` input yields one empty segment, like
`''.split('\n') == ['']`. -/
def splitNl : List Char → List (List Char)
  | [] => [[]]
  | c :: cs =>
    match splitNl cs with
    | [] => [[c]]
    | l :: ls => if c = '\n' then [] :: l :: ls else (c :: l) :: ls

/-- Python `terraform_content.split('\n')` as used at line 43. -/
def pySplitLines (s : String) : List String := (splitNl s.data).map String.mk

/-- One knowledge-base entry, the fields the scan loop reads from each
`pattern_info` dict. -/
structure PatternInfo where
  category : String
  severity : String
  vulnerability : String
  pattern : String
  remediation : String
deriving DecidableEq

/-- One element of the `findings` list built at lines 49-57. -/
structure Finding where
  category : String
  severity : String
  vulnerability : String
  pattern : String
  «matches» : List String
  line_matches : List (Nat × String)
  remediation : String
deriving DecidableEq

/-- Abstraction of the Python `re` module at the three call sites of the
scan loop.  `compiles p` is true when `re.compile(p)` succeeds (an
`re.error` depends only on the pattern text, not on the flags);
`findallIM p s` is `re.findall(p, s, re.IGNORECASE | re.MULTILINE)`;
`searchI p s` is whether `re.search(p, s, re.IGNORECASE)` finds a match. -/
structure RegexEngine where
  compiles : String → Bool
  findallIM : String → String → List String
  searchI : String → String → Bool

/-- Lines 43-47: enumerate the corpus lines from 1, keep the stripped
text of each line the pattern matches case-insensitively. -/
def collectLineMatches (E : RegexEngine) (pat : String) (content : String) :
    List (Nat × String) :=
  (pySplitLines content).enum.filterMap fun il =>
    if E.searchI pat il.2 then some (il.1 + 1, pyStrip il.2) else none

/-- Lines 39-57 for one knowledge-base entry: `none` when the pattern
fails to compile (`except re.error: continue`) or when `re.findall`
returns an empty list (`if matches:` falls through); otherwise the
`Finding` appended to the findings list. -/
def scanPattern (E : RegexEngine) (info : PatternInfo) (content : String) :
    Option Finding :=
  if E.compiles info.pattern then
    let ms := E.findallIM info.pattern content
    if ms.isEmpty then none
    else some { category := info.category, severity := info.severity,
                vulnerability := info.vulnerability, pattern := info.pattern,
                «matches» := ms,
                line_matches := collectLineMatches E info.pattern content,
                remediation := info.remediation }
  else none

/-- Lines 29-60: the whole scan loop over the knowledge base. -/
def scan (E : RegexEngine) (K : List PatternInfo) (content : String) :
    List Finding :=
  K.filterMap fun info => scanPattern E info content

/-- Line 63: `severity_order = ['CRITICAL', 'HIGH', 'MEDIUM', 'LOW']`. -/
def severity_order : List String := ["CRITICAL", "HIGH", "MEDIUM", "LOW"]

/-- Lines 65-67: the severity groups the rendering loop displays, in
loop order, with empty groups skipped by `if severity_findings:`. -/
def renderGroups (findings : List Finding) : List (String × List Finding) :=
  severity_order.filterMap fun sev =>
    let severity_findings := findings.filter fun f => f.severity == sev
    if severity_findings.isEmpty then none else some (sev, severity_findings)

/-- Line 86: `total_findings = len(findings)`. -/
def total_findings (findings : List Finding) : Nat := findings.length

/-- Line 87: `critical_count = len([f for f in findings if f['severity'] == 'CRITICAL'])`. -/
def critical_count (findings : List Finding) : Nat :=
  (findings.filter fun f => f.severity == "CRITICAL").length

/-- Line 88: `high_count = len([f for f in findings if f['severity'] == 'HIGH'])`. -/
def high_count (findings : List Finding) : Nat :=
  (findings.filter fun f => f.severity == "HIGH").length

/-! ### A concrete engine for witnesses and counterexamples

For a pattern with no regex metacharacters, Python `re.findall` returns
the non-overlapping left-to-right occurrences of the literal and
`re.search` succeeds exactly when the literal occurs; under IGNORECASE
the comparison is caseless.  `countOcc` counts those occurrences (the
fuel argument only bounds the recursion; `length + 1` steps always
suffice).  Note `re.findall('', s)` returns `len(s) + 1` empty strings,
which the `isEmpty` base case reproduces. -/

/-- ASCII lowercasing, the caseless comparison of IGNORECASE. -/
def lowerChar (c : Char) : Char :=
  if 'A' ≤ c && c ≤ 'Z' then Char.ofNat (c.toNat + 32) else c

/-- Lowercase a whole character list. -/
def lowerList (s : List Char) : List Char := s.map lowerChar

/-- Count non-overlapping left-to-right occurrences of `p` in the
remaining text, with explicit fuel. -/
def countOccFuel (p : List Char) : Nat → List Char → Nat
  | 0, _ => 0
  | _ + 1, [] => if p.isEmpty then 1 else 0
  | n + 1, c :: cs =>
    if p.isPrefixOf (c :: cs) then 1 + countOccFuel p n (cs.drop (p.length - 1))
    else countOccFuel p n cs

/-- Non-overlapping occurrences of `p` in `s`, Python-`re` convention
(the empty pattern has `|s| + 1` occurrences). -/
def countOcc (p s : List Char) : Nat := countOccFuel p (s.length + 1) s

/-- Model of `re.findall(p, s, re.IGNORECASE | re.MULTILINE)` for a literal
pattern `p`: one copy of the matched text per occurrence. -/
def litFindall (p s : String) : List String :=
  List.replicate (countOcc (lowerList p.data) (lowerList s.data)) p

/-- Model of `re.search(p, s, re.IGNORECASE)` for a literal pattern `p`. -/
def litSearch (p s : String) : Bool :=
  0 < countOcc (lowerList p.data) (lowerList s.data)

/-- Literal-substring engine: agrees with Python `re` on every
metacharacter-free pattern; the pattern `"(invalid"` (an unbalanced
group, from the spec's own example) is the one that fails to compile. -/
def demoEngine : RegexEngine where
  compiles := fun p => p != "(invalid"
  findallIM := litFindall
  searchI := litSearch

example : pySplitLines "a\nb" = ["a", "b"] := by decide
example : pySplitLines "" = [""] := by decide
example : pyStrip "  x\t" = "x" := by decide
example : litFindall "allusers" "x allusers y" = ["allusers"] := by decide
example : litFindall "allUsers" "member = \"allusers\"" = ["allUsers"] := by decide
example : litSearch "q" "abc" = false := by decide

/-! ### Concrete knowledge-base entries used in witnesses and counterexamples -/

/-- The `member = "allUsers"` entry restricted to its matching core,
as in the spec's first worked example. -/
def allUsersEntry : PatternInfo where
  category := "Public Access Controls"
  severity := "CRITICAL"
  vulnerability := "Public IAM Binding"
  pattern := "allUsers"
  remediation := "Remove allUsers member"

/-- An over-privileged-role entry, as in the spec's third worked example. -/
def ownerRoleEntry : PatternInfo where
  category := "IAM Privilege Escalation"
  severity := "HIGH"
  vulnerability := "Overly Permissive Role"
  pattern := "roles/owner"
  remediation := "Use least-privilege roles"

/-- An entry whose pattern fails to compile (`re.error` on the
unbalanced group), from the spec's third worked example. -/
def invalidEntry : PatternInfo where
  category := "Broken Rule"
  severity := "HIGH"
  vulnerability := "Malformed Pattern"
  pattern := "(invalid"
  remediation := "Fix the rule"

/-- The spec's first worked corpus. -/
def demoCorpus : String := "line1\nmember = \"allUsers\"\nline3"

/-! ### Basic inversion lemmas about the scan -/

/-- The `Finding` the loop body appends for entry `info` (lines 49-57). -/
def mkFinding (E : RegexEngine) (info : PatternInfo) (content : String) : Finding where
  category := info.category
  severity := info.severity
  vulnerability := info.vulnerability
  pattern := info.pattern
  «matches» := E.findallIM info.pattern content
  line_matches := collectLineMatches E info.pattern content
  remediation := info.remediation

theorem isEmpty_false_iff {α : Type} {l : List α} : l.isEmpty = false ↔ l ≠ [] := by
  cases l <;> simp [List.isEmpty]

theorem scanPattern_eq_some {E : RegexEngine} {info : PatternInfo} {C : String}
    {f : Finding} :
    scanPattern E info C = some f ↔
      E.compiles info.pattern = true ∧ E.findallIM info.pattern C ≠ [] ∧
        f = mkFinding E info C := by
  unfold scanPattern mkFinding
  rcases h : E.compiles info.pattern <;> simp
  rcases h2 : (E.findallIM info.pattern C).isEmpty
  · simp [isEmpty_false_iff.mp h2, eq_comm]
  · have : E.findallIM info.pattern C = [] := by
      cases hl : E.findallIM info.pattern C
      · rfl
      · rw [hl] at h2; simp [List.isEmpty] at h2
    simp [this]

theorem mem_scan {E : RegexEngine} {K : List PatternInfo} {C : String} {f : Finding} :
    f ∈ scan E K C ↔ ∃ info, info ∈ K ∧ scanPattern E info C = some f := by
  unfold scan
  exact List.mem_filterMap

/-- Every field of `mkFinding` in terms of the entry. -/
theorem mkFinding_pattern (E : RegexEngine) (info : PatternInfo) (C : String) :
    (mkFinding E info C).pattern = info.pattern := rfl

theorem mkFinding_severity (E : RegexEngine) (info : PatternInfo) (C : String) :
    (mkFinding E info C).severity = info.severity := rfl

/-- A member of the scan result always arises as `mkFinding` of a
compiling, matching entry of the knowledge base. -/
theorem mem_scan_elim {E : RegexEngine} {K : List PatternInfo} {C : String}
    {f : Finding} (hf : f ∈ scan E K C) :
    ∃ info, info ∈ K ∧ E.compiles info.pattern = true ∧
      E.findallIM info.pattern C ≠ [] ∧ f = mkFinding E info C := by
  rcases mem_scan.mp hf with ⟨info, hinfo, hsome⟩
  rcases scanPattern_eq_some.mp hsome with ⟨hc, hne, rfl⟩
  exact ⟨info, hinfo, hc, hne, rfl⟩

/-- Conversely, each compiling, matching entry contributes its finding. -/
theorem mkFinding_mem_scan {E : RegexEngine} {K : List PatternInfo} {C : String}
    {info : PatternInfo} (hinfo : info ∈ K) (hc : E.compiles info.pattern = true)
    (hne : E.findallIM info.pattern C ≠ []) :
    mkFinding E info C ∈ scan E K C :=
  mem_scan.mpr ⟨info, hinfo, scanPattern_eq_some.mpr ⟨hc, hne, rfl⟩⟩

/-! ### C1 -/

/-- C1: for every knowledge base `K` and corpus `C`, the scan produces a
`Finding` for a (compiling) pattern `P` of `K` exactly when `P`'s regex,
evaluated case-insensitively and multi-line over the whole corpus, has
at least one match; in particular a pattern with zero matches yields no
`Finding`. -/
theorem finding_iff_whole_text_match (E : RegexEngine) (K : List PatternInfo)
    (C : String) (P : PatternInfo) (hP : P ∈ K)
    (hc : E.compiles P.pattern = true) :
    (∃ f ∈ scan E K C, f.pattern = P.pattern) ↔
      E.findallIM P.pattern C ≠ [] := by
  constructor
  · rintro ⟨f, hf, hfp⟩
    rcases mem_scan_elim hf with ⟨info, _, _, hne, rfl⟩
    rw [mkFinding_pattern] at hfp
    rwa [← hfp]
  · intro hne
    exact ⟨mkFinding E P C, mkFinding_mem_scan hP hc hne, rfl⟩

/-- C1 witness: the spec's first worked example, where `allUsers`
matches the demo corpus. -/
theorem finding_iff_whole_text_match_witness :
    (∃ f ∈ scan demoEngine [allUsersEntry] demoCorpus,
        f.pattern = "allUsers") ↔
      demoEngine.findallIM "allUsers" demoCorpus ≠ [] :=
  finding_iff_whole_text_match demoEngine [allUsersEntry] demoCorpus
    allUsersEntry (by decide) (by decide)

/-! ### C2 -/

/-- C2: a knowledge-base entry whose regex fails to compile is skipped
silently — the scan total function returns no `Finding` for it, while
every compiling entry that matches the corpus still contributes its
`Finding`. -/
theorem malformed_pattern_skipped (E : RegexEngine) (K : List PatternInfo)
    (C : String) (Q : PatternInfo) (_hQ : Q ∈ K)
    (hbad : E.compiles Q.pattern = false) :
    (∀ f ∈ scan E K C, f.pattern ≠ Q.pattern) ∧
      (∀ P ∈ K, E.compiles P.pattern = true → E.findallIM P.pattern C ≠ [] →
        ∃ f ∈ scan E K C, f.pattern = P.pattern) := by
  constructor
  · intro f hf hfp
    rcases mem_scan_elim hf with ⟨info, _, hc, _, rfl⟩
    rw [mkFinding_pattern] at hfp
    rw [hfp, hbad] at hc
    exact Bool.noConfusion hc
  · intro P hP hc hne
    exact ⟨mkFinding E P C, mkFinding_mem_scan hP hc hne, rfl⟩

/-- C2 witness: the spec's third worked example — a malformed
`(invalid` rule next to a valid `roles/owner` rule; the valid rule's
finding survives. -/
theorem malformed_pattern_skipped_witness :
    ∃ f ∈ scan demoEngine [invalidEntry, ownerRoleEntry]
        "role = \"roles/owner\"", f.pattern = "roles/owner" :=
  (malformed_pattern_skipped demoEngine [invalidEntry, ownerRoleEntry]
      "role = \"roles/owner\"" invalidEntry (by decide) (by decide)).2
    ownerRoleEntry (by decide) (by decide) (by decide)

/-! ### C9 -/

/-- C9: the `matches` field of the `Finding` of a matching pattern `P`
is exactly what `re.findall` returns for `P` over the whole corpus —
the matched substrings under regex (capture-group) semantics. -/
theorem matches_field_is_findall (E : RegexEngine) (K : List PatternInfo)
    (C : String) (P : PatternInfo) (_hP : P ∈ K)
    (_hc : E.compiles P.pattern = true)
    (_hm : E.findallIM P.pattern C ≠ []) :
    ∀ f ∈ scan E K C, f.pattern = P.pattern →
      f.«matches» = E.findallIM P.pattern C := by
  intro f hf hfp
  rcases mem_scan_elim hf with ⟨info, _, _, _, rfl⟩
  rw [mkFinding_pattern] at hfp
  show E.findallIM info.pattern C = E.findallIM P.pattern C
  rw [hfp]

/-- C9 witness: the `roles/owner` finding carries the findall result. -/
theorem matches_field_is_findall_witness :
    (mkFinding demoEngine ownerRoleEntry "a\nrole = \"roles/owner\"").«matches» =
      demoEngine.findallIM "roles/owner" "a\nrole = \"roles/owner\"" :=
  matches_field_is_findall demoEngine [ownerRoleEntry]
    "a\nrole = \"roles/owner\"" ownerRoleEntry (by decide) (by decide)
    (by decide) (mkFinding demoEngine ownerRoleEntry "a\nrole = \"roles/owner\"")
    (by decide) (by decide)

/-! ### C10 -/

/-- C10: each `(n, t)` recorded in a `Finding`'s `line_matches` stores
as `t` the text of corpus line `n` (1-based) with leading and trailing
whitespace stripped (`line.strip()`), not the raw line text. -/
theorem line_matches_text_stripped (E : RegexEngine) (K : List PatternInfo)
    (C : String) :
    ∀ f ∈ scan E K C, ∀ nt ∈ f.line_matches,
      ∃ h : nt.1 - 1 < (pySplitLines C).length,
        nt.2 = pyStrip ((pySplitLines C).get ⟨nt.1 - 1, h⟩) := by
  intro f hf nt hnt
  rcases mem_scan_elim hf with ⟨info, _, _, _, rfl⟩
  have hnt' : nt ∈ collectLineMatches E info.pattern C := hnt
  unfold collectLineMatches at hnt'
  rcases List.mem_filterMap.mp hnt' with ⟨il, hil, hsome⟩
  rcases il with ⟨i, line⟩
  split at hsome
  · cases hsome
    have hg : (pySplitLines C)[i]? = some line := by
      simpa using List.mem_enum_iff_getElem?.mp hil
    rcases List.getElem?_eq_some_iff.mp hg with ⟨hlen, hget⟩
    refine ⟨by simpa using hlen, ?_⟩
    simp only [List.get_eq_getElem]
    simp [hget]
  · exact absurd hsome (by simp)

/-- C10 witness: an indented, trailing-space line is stored stripped. -/
theorem line_matches_text_stripped_witness :
    ∃ h : (2 : Nat) - 1 <
        (pySplitLines "ok\n  member = \"allUsers\"  ").length,
      ("member = \"allUsers\"" : String) =
        pyStrip ((pySplitLines "ok\n  member = \"allUsers\"  ").get
          ⟨(2 : Nat) - 1, h⟩) :=
  line_matches_text_stripped demoEngine [allUsersEntry]
    "ok\n  member = \"allUsers\"  "
    (mkFinding demoEngine allUsersEntry "ok\n  member = \"allUsers\"  ")
    (by decide) ((2 : Nat), ("member = \"allUsers\"" : String)) (by decide)

/-! ### C5 -/

/-- C5 (amended): scanning with an empty knowledge base yields zero
findings for every corpus, and scanning an empty corpus yields zero
findings for every knowledge base none of whose patterns matches the
empty string; neither case is an error (the scan is a total function). -/
theorem empty_inputs_yield_no_findings (E : RegexEngine) (K : List PatternInfo)
    (C : String) (h : ∀ P ∈ K, E.findallIM P.pattern "" = []) :
    scan E K "" = [] ∧ scan E [] C = [] := by
  constructor
  · unfold scan
    rw [List.filterMap_eq_nil_iff]
    intro info hinfo
    unfold scanPattern
    cases hc : E.compiles info.pattern
    · simp
    · simp [h info hinfo]
  · rfl

/-- C5 witness: the `allUsers` rule finds nothing in the empty corpus,
and the empty knowledge base finds nothing in a non-empty corpus. -/
theorem empty_inputs_yield_no_findings_witness :
    scan demoEngine [allUsersEntry] "" = [] ∧
      scan demoEngine [] "member = \"allUsers\"" = [] :=
  empty_inputs_yield_no_findings demoEngine [allUsersEntry]
    "member = \"allUsers\"" (by decide)

/-- A degenerate entry whose pattern is the empty regex; Python
`re.findall('', '', re.IGNORECASE | re.MULTILINE)` returns `['']`,
a non-empty (truthy) list. -/
def emptyPatternEntry : PatternInfo where
  category := "Degenerate"
  severity := "LOW"
  vulnerability := "Empty Pattern"
  pattern := ""
  remediation := "n/a"

/-- C5 counterexample: the claim says the empty corpus yields zero
findings for every knowledge base, but a pattern that matches the empty
string (here the empty regex) produces a finding on the empty corpus. -/
theorem empty_corpus_nonzero_findings_counterexample :
    scan demoEngine [emptyPatternEntry] "" ≠ [] := by decide

/-! ### C8 -/

/-- An entry whose pattern contains a literal newline, so it can only
match across a line boundary. -/
def spanEntry : PatternInfo where
  category := "Multi-line"
  severity := "HIGH"
  vulnerability := "Line-spanning Match"
  pattern := "foo\nbar"
  remediation := "n/a"

/-- C8: a pattern that matches the corpus only across a line boundary
produces a `Finding` whose whole-text matches are non-empty while its
`line_matches` list is empty — the per-line re-test never fires because
no single line contains the newline-spanning match. -/
theorem span_match_empty_line_matches :
    ∃ f, scan demoEngine [spanEntry] "foo\nbar" = [f] ∧
      f.«matches» ≠ [] ∧ f.line_matches = [] :=
  ⟨mkFinding demoEngine spanEntry "foo\nbar", by decide, by decide, by decide⟩

/-! ### C4 -/

/-- A map-injective list bounds `countP` on preimages of a point by one. -/
theorem countP_le_one_of_nodup_map {α β : Type} [BEq β] [LawfulBEq β]
    (h : α → β) {l : List α} (hl : (l.map h).Nodup) (v : β) :
    l.countP (fun x => h x == v) ≤ 1 := by
  induction l with
  | nil => simp
  | cons a t ih =>
    rw [List.map_cons, List.nodup_cons] at hl
    rw [List.countP_cons]
    by_cases hv : h a = v
    · have hz : t.countP (fun x => h x == v) = 0 := by
        rw [List.countP_eq_zero]
        intro x hx
        simp only [beq_iff_eq]
        intro hxv
        exact hl.1 (by rw [hv, ← hxv]; exact List.mem_map_of_mem h hx)
      simp [hz, hv]
    · simp only [beq_iff_eq, hv, if_false]
      exact Nat.le_trans (Nat.le_of_eq (by simp)) (ih hl.2)

/-- Distinct entry patterns make the findings' patterns distinct. -/
theorem scan_map_pattern_nodup (E : RegexEngine) (K : List PatternInfo)
    (C : String) (hK : (K.map PatternInfo.pattern).Nodup) :
    ((scan E K C).map Finding.pattern).Nodup := by
  unfold scan
  rw [List.Nodup, List.pairwise_map, List.pairwise_filterMap]
  have hK' : K.Pairwise fun a b => a.pattern ≠ b.pattern := by
    rwa [List.Nodup, List.pairwise_map] at hK
  refine hK'.imp ?_
  intro a b hab f hf g hg
  rcases scanPattern_eq_some.mp hf with ⟨_, _, rfl⟩
  rcases scanPattern_eq_some.mp hg with ⟨_, _, rfl⟩
  simpa [mkFinding] using hab

/-- C4 (amended): for a knowledge base whose entries carry pairwise
distinct pattern strings, the scan returns at most `|K|` findings, every
finding's pattern belongs to an entry of `K`, the findings' patterns are
pairwise distinct, and no pattern produces more than one `Finding`. -/
theorem findings_bounded_and_distinct (E : RegexEngine) (K : List PatternInfo)
    (C : String) (hK : (K.map PatternInfo.pattern).Nodup) :
    (scan E K C).length ≤ K.length ∧
      (∀ f ∈ scan E K C, ∃ P ∈ K, f.pattern = P.pattern) ∧
      ((scan E K C).map Finding.pattern).Nodup ∧
      (∀ P ∈ K, (scan E K C).countP (fun f => f.pattern == P.pattern) ≤ 1) := by
  have hnd : ((scan E K C).map Finding.pattern).Nodup :=
    scan_map_pattern_nodup E K C hK
  refine ⟨List.length_filterMap_le _ _, ?_, hnd, ?_⟩
  · intro f hf
    rcases mem_scan_elim hf with ⟨info, hinfo, _, _, rfl⟩
    exact ⟨info, hinfo, rfl⟩
  · intro P _
    exact countP_le_one_of_nodup_map Finding.pattern hnd P.pattern

/-- C4 witness: a two-entry knowledge base with distinct patterns on the
demo corpus. -/
theorem findings_bounded_and_distinct_witness :
    (scan demoEngine [allUsersEntry, ownerRoleEntry] demoCorpus).length ≤
        ([allUsersEntry, ownerRoleEntry] : List PatternInfo).length ∧
      (∀ f ∈ scan demoEngine [allUsersEntry, ownerRoleEntry] demoCorpus,
        ∃ P ∈ ([allUsersEntry, ownerRoleEntry] : List PatternInfo),
          f.pattern = P.pattern) ∧
      ((scan demoEngine [allUsersEntry, ownerRoleEntry] demoCorpus).map
          Finding.pattern).Nodup ∧
      (∀ P ∈ ([allUsersEntry, ownerRoleEntry] : List PatternInfo),
        (scan demoEngine [allUsersEntry, ownerRoleEntry] demoCorpus).countP
          (fun f => f.pattern == P.pattern) ≤ 1) :=
  findings_bounded_and_distinct demoEngine [allUsersEntry, ownerRoleEntry]
    demoCorpus (by decide)

/-- C4 counterexample: a knowledge base listing the same entry twice
produces two `Finding`s for the one pattern, so "no pattern produces
more than one Finding" fails for arbitrary knowledge bases. -/
theorem duplicate_entry_two_findings_counterexample :
    1 < ((scan demoEngine [allUsersEntry, allUsersEntry]
        "member = \"allUsers\"").filter
          (fun f => f.pattern == "allUsers")).length := by decide

/-! ### C3 -/

/-- Indices listed by `enumFrom n` are at least `n`. -/
theorem fst_ge_of_mem_enumFrom {α : Type} :
    ∀ (l : List α) (n : Nat) (x : Nat × α), x ∈ l.enumFrom n → n ≤ x.1 := by
  intro l
  induction l with
  | nil => intro n x hx; simp [List.enumFrom] at hx
  | cons a t ih =>
    intro n x hx
    rw [List.enumFrom_cons] at hx
    rcases List.mem_cons.mp hx with hx | hx
    · subst hx; exact Nat.le_refl n
    · exact Nat.le_of_succ_le (ih (n + 1) x hx)

/-- The list `enumFrom n l` carries strictly increasing indices. -/
theorem pairwise_fst_lt_enumFrom {α : Type} (l : List α) (n : Nat) :
    (l.enumFrom n).Pairwise (fun a b => a.1 < b.1) := by
  induction l generalizing n with
  | nil => simp [List.enumFrom]
  | cons a t ih =>
    rw [List.enumFrom_cons]
    refine List.Pairwise.cons ?_ (ih (n + 1))
    intro b hb
    exact Nat.lt_of_lt_of_le (Nat.lt_succ_self n)
      (fst_ge_of_mem_enumFrom t (n + 1) b hb)

/-- The recorded line numbers are strictly ascending. -/
theorem collectLineMatches_sorted (E : RegexEngine) (pat C : String) :
    ((collectLineMatches E pat C).map Prod.fst).Sorted (· < ·) := by
  unfold collectLineMatches
  rw [List.Sorted, List.pairwise_map, List.pairwise_filterMap]
  have henum : ((pySplitLines C).enum).Pairwise fun a b => a.1 < b.1 :=
    pairwise_fst_lt_enumFrom (pySplitLines C) 0
  refine henum.imp ?_
  intro a b hab x hx y hy
  have hx1 : x.1 = a.1 + 1 := by
    split at hx
    · cases hx; rfl
    · cases hx
  have hy1 : y.1 = b.1 + 1 := by
    split at hy
    · cases hy; rfl
    · cases hy
  rw [hx1, hy1]
  exact Nat.succ_lt_succ hab

/-- A 1-based line number is recorded for a pattern exactly when the
per-line search succeeds on that line of the corpus. -/
theorem mem_collectLineMatches_iff (E : RegexEngine) (pat C : String) (n : Nat) :
    (∃ t, (n, t) ∈ collectLineMatches E pat C) ↔
      ∃ hn : n - 1 < (pySplitLines C).length, 1 ≤ n ∧
        E.searchI pat ((pySplitLines C).get ⟨n - 1, hn⟩) = true := by
  constructor
  · rintro ⟨t, ht⟩
    unfold collectLineMatches at ht
    rcases List.mem_filterMap.mp ht with ⟨⟨i, line⟩, hil, hsome⟩
    split at hsome
    case isTrue hs =>
      rw [Option.some_inj] at hsome
      obtain ⟨hn', ht'⟩ := Prod.mk.injEq .. ▸ hsome
      subst hn'
      have hg : (pySplitLines C)[i]? = some line := by
        simpa using List.mem_enum_iff_getElem?.mp hil
      rcases List.getElem?_eq_some_iff.mp hg with ⟨hlen, hget⟩
      refine ⟨by simpa using hlen, by omega, ?_⟩
      simp only [List.get_eq_getElem]
      simpa [hget] using hs
    case isFalse => exact absurd hsome (by simp)
  · rintro ⟨hn, h1, hs⟩
    refine ⟨pyStrip ((pySplitLines C).get ⟨n - 1, hn⟩), ?_⟩
    unfold collectLineMatches
    refine List.mem_filterMap.mpr
      ⟨(n - 1, (pySplitLines C).get ⟨n - 1, hn⟩), ?_, ?_⟩
    · rw [List.mem_enum_iff_getElem?]
      simp [List.getElem?_eq_getElem hn]
    · rw [if_pos (by simpa using hs)]
      simp [Nat.sub_add_cancel h1]

/-- C3 (amended): for a knowledge base with pairwise distinct patterns,
a pattern that matches the corpus at least once yields exactly one
`Finding`, whose `line_matches` carries exactly the 1-based indices of
the lines whose text independently matches the pattern, in strictly
ascending order (hence without duplicates). -/
theorem unique_finding_exact_line_matches (E : RegexEngine)
    (K : List PatternInfo) (C : String) (P : PatternInfo)
    (hK : (K.map PatternInfo.pattern).Nodup) (hP : P ∈ K)
    (hc : E.compiles P.pattern = true)
    (hm : E.findallIM P.pattern C ≠ []) :
    (scan E K C).countP (fun f => f.pattern == P.pattern) = 1 ∧
      ∀ f ∈ scan E K C, f.pattern = P.pattern →
        (∀ n : Nat, (∃ t, (n, t) ∈ f.line_matches) ↔
            ∃ hn : n - 1 < (pySplitLines C).length, 1 ≤ n ∧
              E.searchI P.pattern ((pySplitLines C).get ⟨n - 1, hn⟩) = true) ∧
          (f.line_matches.map Prod.fst).Sorted (· < ·) := by
  constructor
  · refine Nat.le_antisymm
      (countP_le_one_of_nodup_map Finding.pattern
        (scan_map_pattern_nodup E K C hK) P.pattern) ?_
    have : 0 < (scan E K C).countP (fun f => f.pattern == P.pattern) :=
      List.countP_pos_iff.mpr
        ⟨mkFinding E P C, mkFinding_mem_scan hP hc hm, by simp [mkFinding]⟩
    omega
  · intro f hf hfp
    rcases mem_scan_elim hf with ⟨info, _, _, _, rfl⟩
    rw [mkFinding_pattern] at hfp
    constructor
    · intro n
      rw [← hfp]
      exact mem_collectLineMatches_iff E info.pattern C n
    · exact collectLineMatches_sorted E info.pattern C

/-- C3 witness: the `allUsers` finding on the demo corpus — one finding,
line 2 recorded, line numbers sorted. -/
theorem unique_finding_exact_line_matches_witness :
    (scan demoEngine [allUsersEntry] demoCorpus).countP
        (fun f => f.pattern == allUsersEntry.pattern) = 1 ∧
      ((∃ t, ((2 : Nat), t) ∈
          (mkFinding demoEngine allUsersEntry demoCorpus).line_matches) ↔
        ∃ hn : (2 : Nat) - 1 < (pySplitLines demoCorpus).length,
          (1 : Nat) ≤ 2 ∧
            demoEngine.searchI allUsersEntry.pattern
              ((pySplitLines demoCorpus).get ⟨(2 : Nat) - 1, hn⟩) = true) ∧
      ((mkFinding demoEngine allUsersEntry demoCorpus).line_matches.map
          Prod.fst).Sorted (· < ·) :=
  ⟨(unique_finding_exact_line_matches demoEngine [allUsersEntry] demoCorpus
      allUsersEntry (by decide) (by decide) (by decide) (by decide)).1,
   ((unique_finding_exact_line_matches demoEngine [allUsersEntry] demoCorpus
      allUsersEntry (by decide) (by decide) (by decide) (by decide)).2
      (mkFinding demoEngine allUsersEntry demoCorpus) (by decide) rfl).1 2,
   ((unique_finding_exact_line_matches demoEngine [allUsersEntry] demoCorpus
      allUsersEntry (by decide) (by decide) (by decide) (by decide)).2
      (mkFinding demoEngine allUsersEntry demoCorpus) (by decide) rfl).2⟩

/-- C3 counterexample: with the same entry listed twice, two findings
for the one pattern appear, so "the unique Finding" fails on arbitrary
knowledge bases. -/
theorem duplicate_entry_nonunique_finding_counterexample :
    (scan demoEngine [ownerRoleEntry, ownerRoleEntry]
        "x\nrole = \"roles/owner\"").countP
      (fun f => f.pattern == "roles/owner") = 2 := by decide

/-! ### C6 -/

/-- A finding carries its entry's severity, so filtering findings by a
severity is the same as scanning only that severity's entries. -/
theorem scan_filter_severity (E : RegexEngine) (K : List PatternInfo)
    (C : String) (sev : String) :
    (scan E K C).filter (fun f => f.severity == sev) =
      scan E (K.filter fun P => P.severity == sev) C := by
  unfold scan
  rw [List.filter_filterMap, List.filterMap_filter]
  congr 1
  funext a
  cases h : scanPattern E a C with
  | none => simp [Option.filter]
  | some f =>
    have hfs : f.severity = a.severity := by
      rcases scanPattern_eq_some.mp h with ⟨_, _, rfl⟩; rfl
    cases hs : (a.severity == sev)
    · simp [Option.filter, hfs, hs]
    · simp [Option.filter, hfs, hs]

/-- The displayed group labels are the severities of the fixed order
whose group of findings is non-empty, kept in that fixed order. -/
theorem renderGroups_map_fst (fs : List Finding) :
    (renderGroups fs).map Prod.fst =
      severity_order.filter
        (fun sev => !((fs.filter fun f => f.severity == sev).isEmpty)) := by
  unfold renderGroups
  generalize severity_order = l
  induction l with
  | nil => rfl
  | cons a t ih =>
    cases h : (fs.filter fun f => f.severity == a).isEmpty with
    | false =>
      rw [List.filterMap_cons, List.filter_cons]
      dsimp only
      rw [if_neg (by simp [h]), if_pos (by simp [h])]
      dsimp only
      rw [List.map_cons]
      show a :: _ = a :: _
      exact congrArg _ ih
    | true =>
      rw [List.filterMap_cons, List.filter_cons]
      dsimp only
      rw [if_pos (by simp [h]), if_neg (by simp [h])]
      exact ih

/-- Inverting membership in the rendered groups. -/
theorem mem_renderGroups {fs : List Finding} {sev : String}
    {g : List Finding} (hm : (sev, g) ∈ renderGroups fs) :
    g ≠ [] ∧ g = fs.filter fun f => f.severity == sev := by
  unfold renderGroups at hm
  rcases List.mem_filterMap.mp hm with ⟨s, _, hsome⟩
  dsimp only at hsome
  split at hsome
  · exact absurd hsome (by simp)
  · rename_i hne
    rw [Option.some_inj] at hsome
    obtain ⟨rfl, rfl⟩ := Prod.mk.injEq .. ▸ hsome
    refine ⟨?_, rfl⟩
    intro hnil
    rw [hnil] at hne
    exact hne rfl

/-- C6: rendering displays the findings grouped by severity in the
fixed order CRITICAL, HIGH, MEDIUM, LOW, omitting empty groups; each
displayed group is non-empty and consists exactly of the findings of
that severity's entries in knowledge-base declaration order. -/
theorem render_groups_by_severity (E : RegexEngine) (K : List PatternInfo)
    (C : String) :
    ((renderGroups (scan E K C)).map Prod.fst =
        severity_order.filter (fun sev =>
          !(((scan E K C).filter fun f => f.severity == sev).isEmpty))) ∧
      ∀ sev g, (sev, g) ∈ renderGroups (scan E K C) →
        g ≠ [] ∧ g = scan E (K.filter fun P => P.severity == sev) C := by
  refine ⟨renderGroups_map_fst _, ?_⟩
  intro sev g hm
  rcases mem_renderGroups hm with ⟨hne, rfl⟩
  exact ⟨hne, scan_filter_severity E K C sev⟩

/-- A corpus hitting one CRITICAL and one HIGH rule. -/
def mixedCorpus : String := "member = \"allUsers\"\nrole = \"roles/owner\""

/-- C6 witness: on the mixed corpus the CRITICAL group precedes the
HIGH group, MEDIUM and LOW are omitted, and the HIGH group equals the
scan of the HIGH entries alone. -/
theorem render_groups_by_severity_witness :
    ((renderGroups (scan demoEngine [allUsersEntry, ownerRoleEntry]
          mixedCorpus)).map Prod.fst =
        severity_order.filter (fun sev =>
          !(((scan demoEngine [allUsersEntry, ownerRoleEntry]
              mixedCorpus).filter fun f => f.severity == sev).isEmpty))) ∧
      ([mkFinding demoEngine ownerRoleEntry mixedCorpus] ≠ [] ∧
        [mkFinding demoEngine ownerRoleEntry mixedCorpus] =
          scan demoEngine (([allUsersEntry, ownerRoleEntry] :
              List PatternInfo).filter
            fun P => P.severity == "HIGH") mixedCorpus) :=
  ⟨(render_groups_by_severity demoEngine [allUsersEntry, ownerRoleEntry]
      mixedCorpus).1,
   (render_groups_by_severity demoEngine [allUsersEntry, ownerRoleEntry]
      mixedCorpus).2 "HIGH" [mkFinding demoEngine ownerRoleEntry mixedCorpus]
     (by decide)⟩

/-! ### C7 -/

/-- The list length decomposes into the four per-severity counts plus
the count of findings whose severity is outside the fixed order. -/
theorem length_eq_severity_counts (fs : List Finding) :
    fs.length =
      fs.countP (fun f => f.severity == "CRITICAL") +
        fs.countP (fun f => f.severity == "HIGH") +
        fs.countP (fun f => f.severity == "MEDIUM") +
        fs.countP (fun f => f.severity == "LOW") +
        fs.countP (fun f =>
          !((f.severity == "CRITICAL") || (f.severity == "HIGH") ||
            (f.severity == "MEDIUM") || (f.severity == "LOW"))) := by
  induction fs with
  | nil => rfl
  | cons a t ih =>
    rw [List.length_cons, List.countP_cons, List.countP_cons, List.countP_cons,
      List.countP_cons, List.countP_cons]
    by_cases h1 : a.severity = "CRITICAL"
    · rw [if_pos (by simp [h1]), if_neg (by simp [h1]), if_neg (by simp [h1]),
        if_neg (by simp [h1]), if_neg (by simp [h1])]
      omega
    by_cases h2 : a.severity = "HIGH"
    · rw [if_neg (by simp [h2]), if_pos (by simp [h2]), if_neg (by simp [h2]),
        if_neg (by simp [h2]), if_neg (by simp [h2])]
      omega
    by_cases h3 : a.severity = "MEDIUM"
    · rw [if_neg (by simp [h3]), if_neg (by simp [h3]), if_pos (by simp [h3]),
        if_neg (by simp [h3]), if_neg (by simp [h3])]
      omega
    by_cases h4 : a.severity = "LOW"
    · rw [if_neg (by simp [h4]), if_neg (by simp [h4]), if_neg (by simp [h4]),
        if_pos (by simp [h4]), if_neg (by simp [h4])]
      omega
    rw [if_neg (by simp [h1]), if_neg (by simp [h2]), if_neg (by simp [h3]),
      if_neg (by simp [h4]), if_pos (by simp [h1, h2, h3, h4])]
    omega

/-- C7: every summary counter the code prints — the total, the
CRITICAL and HIGH counts, and each rendered severity group's size — is
a derived value equal to a re-count over the findings list, and the
per-severity counts decompose the total. -/
theorem summary_counters_recount (E : RegexEngine) (K : List PatternInfo)
    (C : String) :
    total_findings (scan E K C) = (scan E K C).length ∧
      critical_count (scan E K C) =
        (scan E K C).countP (fun f => f.severity == "CRITICAL") ∧
      high_count (scan E K C) =
        (scan E K C).countP (fun f => f.severity == "HIGH") ∧
      (∀ sev g, (sev, g) ∈ renderGroups (scan E K C) →
        g.length = (scan E K C).countP (fun f => f.severity == sev)) ∧
      total_findings (scan E K C) =
        (scan E K C).countP (fun f => f.severity == "CRITICAL") +
          (scan E K C).countP (fun f => f.severity == "HIGH") +
          (scan E K C).countP (fun f => f.severity == "MEDIUM") +
          (scan E K C).countP (fun f => f.severity == "LOW") +
          (scan E K C).countP (fun f =>
            !((f.severity == "CRITICAL") || (f.severity == "HIGH") ||
              (f.severity == "MEDIUM") || (f.severity == "LOW"))) := by
  refine ⟨rfl, (List.countP_eq_length_filter _ _).symm,
    (List.countP_eq_length_filter _ _).symm, ?_, length_eq_severity_counts _⟩
  intro sev g hm
  rcases mem_renderGroups hm with ⟨_, rfl⟩
  exact (List.countP_eq_length_filter _ _).symm

/-- C7 witness: the counters on the mixed corpus, with the CRITICAL
group's size equal to the re-count. -/
theorem summary_counters_recount_witness :
    total_findings (scan demoEngine [allUsersEntry, ownerRoleEntry]
        mixedCorpus) =
      (scan demoEngine [allUsersEntry, ownerRoleEntry] mixedCorpus).length ∧
      ([mkFinding demoEngine allUsersEntry mixedCorpus] :
          List Finding).length =
        (scan demoEngine [allUsersEntry, ownerRoleEntry] mixedCorpus).countP
          (fun f => f.severity == "CRITICAL") :=
  ⟨(summary_counters_recount demoEngine [allUsersEntry, ownerRoleEntry]
      mixedCorpus).1,
   (summary_counters_recount demoEngine [allUsersEntry, ownerRoleEntry]
      mixedCorpus).2.2.2.1 "CRITICAL"
     [mkFinding demoEngine allUsersEntry mixedCorpus] (by decide)⟩

end GuardianScan
